import Mathlib

/-!
Verification development for the book-chat application (`src/app.py`).

The file shallowly embeds the two components of the program:
the catalog filter (the inline filtering in `main`, lines 151-156 of
`app.py`) and the conversation session (`initialize_chat`,
`assistant_response`, `display_chat_interface`, and the book-selection
logic in `main`, lines 176-188).

External effects are made explicit:
the streamed upstream response is a finite list of chunks together with a
flag telling whether iteration raises after the listed chunks were
delivered; calls to the render surface (st.error / st.warning) are
recorded as booleans.
-/

namespace BookChat

/-- One row of the book table (`data.csv` columns used by the app:
Title, Category, Author, Summary). -/
structure BookRecord where
  title : String
  category : String
  author : String
  summary : String
deriving DecidableEq, Repr

/-- One chat message, as the dicts `{"role": ..., "content": ...}` stored
in `st.session_state.messages`. -/
structure Message where
  role : String
  content : String
deriving DecidableEq, Repr

/-- One streamed chunk: `chunk.choices[0].delta` with its optional
`content` field (`app.py` line 108 reads it with `.get("content", "")`). -/
structure Chunk where
  content : Option String
deriving DecidableEq, Repr

/-- Category filter of `main` (app.py lines 153-154): keep the whole
catalog on the sentinel, otherwise rows whose Category equals the
selection. -/
def filterByCategory (catalog : List BookRecord) (c : String) : List BookRecord :=
  if c = "All Categories" then catalog
  else catalog.filter (fun r => r.category == c)

/-- Author filter of `main` (app.py lines 155-156): keep the whole catalog
on the sentinel, otherwise rows whose Author equals the selection. -/
def filterByAuthor (catalog : List BookRecord) (a : String) : List BookRecord :=
  if a = "All Authors" then catalog
  else catalog.filter (fun r => r.author == a)

/-- Row predicate equivalent of the category filter. -/
def catPred (c : String) (r : BookRecord) : Bool :=
  c == "All Categories" || r.category == c

/-- Row predicate equivalent of the author filter. -/
def authPred (a : String) (r : BookRecord) : Bool :=
  a == "All Authors" || r.author == a

theorem filterByCategory_eq_filter (catalog : List BookRecord) (c : String) :
    filterByCategory catalog c = catalog.filter (catPred c) := by
  unfold filterByCategory catPred
  by_cases h : c = "All Categories"
  · simp [h]
  · have hb : (c == "All Categories") = false := beq_eq_false_iff_ne.mpr h
    simp [h, hb]

theorem filterByAuthor_eq_filter (catalog : List BookRecord) (a : String) :
    filterByAuthor catalog a = catalog.filter (authPred a) := by
  unfold filterByAuthor authPred
  by_cases h : a = "All Authors"
  · simp [h]
  · have hb : (a == "All Authors") = false := beq_eq_false_iff_ne.mpr h
    simp [h, hb]

/-! ## Conversation session (app.py lines 60-115 and 176-188) -/

/-- The fixed text around the book summary in the system prompt of
`initialize_chat` (app.py lines 62-70). -/
def system_prompt_before : String :=
  "You are a knowledgeable assistant who has read and deeply understands this book. \nUse the following summary as context for our discussion:\n"

/-- The fixed text after the book summary in the system prompt of
`initialize_chat` (app.py lines 62-70). -/
def system_prompt_after : String :=
  "\n\nProvide thoughtful, relevant responses based on the book's content and themes. \nWhen appropriate, reference specific examples from the book to support your points."

/-- Content of the system prompt built by `initialize_chat` for a given
book summary. -/
def system_prompt_content (book_summary : String) : String :=
  system_prompt_before ++ book_summary ++ system_prompt_after

/-- `initialize_chat` (app.py lines 60-71): replace
`st.session_state.messages` with the single system prompt. -/
def initialize_chat (book_summary : String) : List Message :=
  [{ role := "system", content := system_prompt_content book_summary }]

/-- Session state: `st.session_state.messages` and
`st.session_state.selected_book`. -/
structure SessionState where
  messages : List Message
  selected_book : Option String
deriving DecidableEq, Repr

/-- The initial session state (app.py lines 12-17): empty message list, no
book selected. -/
def initState : SessionState := { messages := [], selected_book := none }

/-- Row lookup `df[df['Title'] == t].iloc[0]` (app.py lines 183 and 188):
first row whose Title equals `t`, none when no row matches (pandas raises
there; the UI only offers titles drawn from the table). -/
def lookup (df : List BookRecord) (t : String) : Option BookRecord :=
  (df.filter (fun r => r.title == t)).head?

/-- Book-selection logic of `main` (app.py lines 176-188): when the
selection differs from the stored one, store it and reset the messages via
`initialize_chat` with the new book's Summary; otherwise leave the session
untouched. `none` models the pandas `.iloc[0]` failure on an absent
title. -/
def selectBook (df : List BookRecord) (s : SessionState) (t : String) :
    Option SessionState :=
  if s.selected_book = some t then
    some s
  else
    match lookup df t with
    | some book =>
        some { selected_book := some t,
               messages := initialize_chat book.summary }
    | none => none

/-- Behavior of the upstream `openai.ChatCompletion.create` call in one
exchange: either it raises (no response object), or it yields a finite
list of chunks after which iteration either ends normally or raises. -/
inductive UpstreamBehavior where
  | raises : UpstreamBehavior
  | streams (chunks : List Chunk) (failsMidStream : Bool) : UpstreamBehavior
deriving DecidableEq, Repr

/-- `assistant_response` (app.py lines 73-84): returns the stream, or
shows an error (`st.error`, the Bool component) and returns None when the
call raises. -/
def assistant_response : UpstreamBehavior →
    Option (List Chunk × Bool) × Bool
  | .raises => (none, true)
  | .streams chunks failsMidStream => (some (chunks, failsMidStream), false)

/-- The accumulation loop of `display_chat_interface` (app.py lines
107-109): `full_response += chunk.choices[0].delta.get("content", "")`
over the delivered chunks in order. -/
def accumulate (chunks : List Chunk) : String :=
  chunks.foldl (fun full_response c => full_response ++ c.content.getD "") ""

/-- The submission branch of `display_chat_interface` (app.py lines
95-115): append the user message; call `assistant_response`; when a
response object exists, iterate its chunks — on normal exhaustion append
the accumulated assistant message, on a mid-stream raise fall into the
`except` block which only shows an error; when no response object exists
do nothing further. The Bool records whether `st.error` was shown. -/
def submit (s : SessionState) (prompt : String) (b : UpstreamBehavior) :
    SessionState × Bool :=
  let s1 : SessionState :=
    { s with messages := s.messages ++ [{ role := "user", content := prompt }] }
  match assistant_response b with
  | (none, _) => (s1, true)
  | (some (chunks, failsMidStream), _) =>
      if failsMidStream then
        (s1, true)
      else
        ({ s1 with
            messages := s1.messages ++
              [{ role := "assistant", content := accumulate chunks }] },
         false)

/-- One user-visible session operation: choosing a book in the selectbox,
or submitting a chat prompt (with the upstream behavior it meets). -/
inductive Op where
  | select (t : String) : Op
  | submit (prompt : String) (b : UpstreamBehavior) : Op
deriving DecidableEq, Repr

/-- One step of the session: `select` runs the book-selection logic;
`submit` runs the chat submission, which the page only offers once a book
is selected (`if selected_book:` guard, app.py line 176). -/
def step (df : List BookRecord) (s : SessionState) : Op → Option SessionState
  | .select t => selectBook df s t
  | .submit prompt b =>
      if s.selected_book.isSome then some (submit s prompt b).fst else none

/-- Run a sequence of operations from a given state. -/
def runFrom (df : List BookRecord) (s : SessionState) (ops : List Op) :
    Option SessionState :=
  ops.foldlM (step df) s

/-- Run a sequence of operations from the initial session state; the
reachable states are exactly the `some` results. -/
def run (df : List BookRecord) (ops : List Op) : Option SessionState :=
  runFrom df initState ops

/-! ## Data loading (app.py lines 40-58 and 122-126) -/

/-- State of the catalog resource `data.csv` as `load_data` can meet it:
present and parsable to some rows, absent from both probed directories, or
present but raising inside `pd.read_csv`. -/
inductive DataSource where
  | file (rows : List BookRecord) : DataSource
  | missing : DataSource
  | malformed : DataSource
deriving DecidableEq, Repr

/-- `load_data` (app.py lines 40-58): return the parsed rows, or show an
error (`st.error`, the Bool component) and return an empty table when the
file is missing or `pd.read_csv` raises. -/
def load_data : DataSource → List BookRecord × Bool
  | .file rows => (rows, false)
  | .missing => ([], true)
  | .malformed => ([], true)

/-- The guard of `main` (app.py lines 122-126): the page keeps rendering
(filters, book selectbox, chat) only when the loaded table is non-empty;
otherwise it warns and returns. -/
def main_continues (ds : DataSource) : Bool :=
  !(load_data ds).fst.isEmpty

/-! ## Conversation shape predicates -/

/-- The first message, if present, has role system. -/
def firstIsSystem : List Message → Bool
  | [] => true
  | m :: _ => m.role == "system"

/-- The messages' roles alternate, the first being `expected`, each user
followed by assistant and vice versa. -/
def rolesAlternateFrom (expected : String) : List Message → Bool
  | [] => true
  | m :: rest =>
      m.role == expected &&
      rolesAlternateFrom (if expected == "user" then "assistant" else "user") rest

/-- The Conversation invariant claimed by the spec: first message, if
present, has role system, and the remaining messages alternate
user/assistant starting with user. -/
def conversationInvariant : List Message → Bool
  | [] => true
  | m :: rest => m.role == "system" && rolesAlternateFrom "user" rest

/-- A message list made of completed user/assistant exchanges: a
concatenation of pairs, each a user message followed by an assistant
message. -/
inductive Pairs : List Message → Prop
  | nil : Pairs []
  | cons {u a : Message} {rest : List Message} :
      u.role = "user" → a.role = "assistant" → Pairs rest →
      Pairs (u :: a :: rest)

/-- An operation whose upstream call, if any, succeeded: a selection, or a
submission whose stream was exhausted normally. -/
def successfulOp : Op → Bool
  | .select _ => true
  | .submit _ .raises => false
  | .submit _ (.streams _ failsMidStream) => !failsMidStream

/-- Sample catalog used to instantiate universally quantified theorems at
concrete inputs. -/
def df0 : List BookRecord :=
  [{ title := "Atomic Habits", category := "Self-help",
     author := "James Clear", summary := "Habits compound." },
   { title := "Deep Work", category := "Business",
     author := "Cal Newport", summary := "Focus matters." }]

/-! ## Helper lemmas -/

theorem foldl_append_str (l : List String) (a : String) :
    l.foldl (· ++ ·) a = a ++ String.join l := by
  induction l generalizing a with
  | nil => simp [String.join, List.foldl, String.append_empty]
  | cons x xs ih =>
    show xs.foldl (· ++ ·) (a ++ x) = a ++ String.join (x :: xs)
    have hx : String.join (x :: xs) = x ++ String.join xs := by
      show xs.foldl (· ++ ·) ("" ++ x) = x ++ String.join xs
      rw [String.empty_append, ih]
    rw [ih, hx, String.append_assoc]

theorem join_cons (x : String) (xs : List String) :
    String.join (x :: xs) = x ++ String.join xs := by
  show xs.foldl (· ++ ·) ("" ++ x) = x ++ String.join xs
  rw [String.empty_append, foldl_append_str]

theorem accumulate_loop (chunks : List Chunk) (acc : String) :
    chunks.foldl (fun full_response c => full_response ++ c.content.getD "") acc
      = acc ++ String.join (chunks.filterMap Chunk.content) := by
  induction chunks generalizing acc with
  | nil => simp [List.foldl, List.filterMap, String.join, String.append_empty]
  | cons c cs ih =>
    cases hc : c.content with
    | none =>
      show cs.foldl _ (acc ++ (Chunk.content c).getD "") = _
      rw [hc]
      simp only [Option.getD_none, String.append_empty, ih,
        List.filterMap_cons, hc]
    | some str =>
      show cs.foldl _ (acc ++ (Chunk.content c).getD "") = _
      rw [hc]
      simp only [Option.getD_some, ih, List.filterMap_cons, hc, join_cons,
        String.append_assoc]

theorem accumulate_eq_join_filterMap (chunks : List Chunk) :
    accumulate chunks = String.join (chunks.filterMap Chunk.content) := by
  unfold accumulate
  rw [accumulate_loop, String.empty_append]

theorem accumulate_eq_join_map (chunks : List Chunk) :
    accumulate chunks
      = String.join (chunks.map (fun c => c.content.getD "")) := by
  induction chunks with
  | nil => rfl
  | cons c cs ih =>
    unfold accumulate at ih ⊢
    show cs.foldl _ ("" ++ (Chunk.content c).getD "") = _
    rw [String.empty_append, accumulate_loop, List.map_cons, join_cons]
    rw [accumulate_loop, String.empty_append] at ih
    rw [ih]

theorem submit_raises_eq (s : SessionState) (prompt : String) :
    submit s prompt UpstreamBehavior.raises
      = ({ s with messages :=
            s.messages ++ [{ role := "user", content := prompt }] }, true) := rfl

theorem submit_midstream_failure_eq (s : SessionState) (prompt : String)
    (chunks : List Chunk) :
    submit s prompt (UpstreamBehavior.streams chunks true)
      = ({ s with messages :=
            s.messages ++ [{ role := "user", content := prompt }] }, true) := rfl

theorem submit_success_eq (s : SessionState) (prompt : String)
    (chunks : List Chunk) :
    submit s prompt (UpstreamBehavior.streams chunks false)
      = ({ s with messages := s.messages ++
            [{ role := "user", content := prompt },
             { role := "assistant", content := accumulate chunks }] },
         false) := by
  simp [submit, assistant_response]

/-- Every submission leaves the previous messages as a prefix and the
selected book unchanged. -/
theorem submit_extends_messages (s : SessionState) (prompt : String)
    (b : UpstreamBehavior) :
    (∃ suffix, (submit s prompt b).fst.messages = s.messages ++ suffix) ∧
    (submit s prompt b).fst.selected_book = s.selected_book := by
  cases b with
  | raises => exact ⟨⟨_, rfl⟩, rfl⟩
  | streams chunks failsMidStream =>
    cases failsMidStream with
    | true => exact ⟨⟨_, rfl⟩, rfl⟩
    | false =>
      rw [submit_success_eq]
      exact ⟨⟨_, rfl⟩, rfl⟩

theorem Pairs.alternates {rest : List Message} (h : Pairs rest) :
    rolesAlternateFrom "user" rest = true := by
  induction h with
  | nil => rfl
  | cons hu ha _ ih =>
    simp only [rolesAlternateFrom, hu, ha, ih]
    simp only [beq_self_eq_true, Bool.and_true, Bool.true_and]
    exact ih

theorem Pairs.append_pair {rest : List Message} {u a : Message}
    (h : Pairs rest) (hu : u.role = "user") (ha : a.role = "assistant") :
    Pairs (rest ++ [u, a]) := by
  induction h with
  | nil => exact Pairs.cons hu ha Pairs.nil
  | cons hu2 ha2 _ ih => exact Pairs.cons hu2 ha2 ih

/-- Weak reachable-state invariant: before any selection the message list
is empty; afterwards it is non-empty and starts with a system message. -/
def SessionInv (s : SessionState) : Prop :=
  (s.selected_book = none ∧ s.messages = []) ∨
  (∃ m rest, s.messages = m :: rest ∧ m.role = "system")

/-- Strong invariant (holds when every upstream call so far succeeded):
the messages after the leading system message form completed
user/assistant pairs. -/
def SessionInvStrong (s : SessionState) : Prop :=
  (s.selected_book = none ∧ s.messages = []) ∨
  (∃ m rest, s.messages = m :: rest ∧ m.role = "system" ∧ Pairs rest)

theorem selectBook_cases (df : List BookRecord) (s s' : SessionState)
    (t : String) (h : selectBook df s t = some s') :
    (s.selected_book = some t ∧ s' = s) ∨
    ∃ book, lookup df t = some book ∧
      s' = { selected_book := some t,
             messages := initialize_chat book.summary } := by
  unfold selectBook at h
  by_cases hsel : s.selected_book = some t
  · rw [if_pos hsel] at h
    exact Or.inl ⟨hsel, (Option.some.inj h).symm⟩
  · rw [if_neg hsel] at h
    cases hb : lookup df t with
    | none => rw [hb] at h; cases h
    | some book =>
      rw [hb] at h
      exact Or.inr ⟨book, rfl, (Option.some.inj h).symm⟩

theorem step_preserves_inv (df : List BookRecord) (s s' : SessionState)
    (op : Op) (hs : SessionInv s) (h : step df s op = some s') :
    SessionInv s' := by
  cases op with
  | select t =>
    rcases selectBook_cases df s s' t h with ⟨_, heq⟩ | ⟨book, _, heq⟩
    · exact heq ▸ hs
    · exact Or.inr ⟨_, [], by rw [heq]; exact rfl, rfl⟩
  | submit prompt b =>
    simp only [step] at h
    by_cases hsome : s.selected_book.isSome
    · rw [if_pos hsome] at h
      rcases hs with ⟨hnone, _⟩ | ⟨m, rest, hmsg, hrole⟩
      · rw [hnone] at hsome; cases hsome
      · obtain ⟨⟨suffix, hsuf⟩, _⟩ := submit_extends_messages s prompt b
        refine Or.inr ⟨m, rest ++ suffix, ?_, hrole⟩
        rw [← Option.some.inj h, hsuf, hmsg, List.cons_append]
    · rw [if_neg hsome] at h; cases h

theorem step_preserves_strong (df : List BookRecord) (s s' : SessionState)
    (op : Op) (hs : SessionInvStrong s) (hop : successfulOp op = true)
    (h : step df s op = some s') : SessionInvStrong s' := by
  cases op with
  | select t =>
    rcases selectBook_cases df s s' t h with ⟨_, heq⟩ | ⟨book, _, heq⟩
    · exact heq ▸ hs
    · exact Or.inr ⟨_, [], by rw [heq]; exact rfl, rfl, Pairs.nil⟩
  | submit prompt b =>
    simp only [step] at h
    by_cases hsome : s.selected_book.isSome
    · rw [if_pos hsome] at h
      rcases hs with ⟨hnone, _⟩ | ⟨m, rest, hmsg, hrole, hpairs⟩
      · rw [hnone] at hsome; cases hsome
      · cases b with
        | raises => simp [successfulOp] at hop
        | streams chunks failsMidStream =>
          cases failsMidStream with
          | true => simp [successfulOp] at hop
          | false =>
            rw [submit_success_eq] at h
            refine Or.inr ⟨m,
              rest ++ [{ role := "user", content := prompt },
                       { role := "assistant", content := accumulate chunks }],
              ?_, hrole, Pairs.append_pair hpairs rfl rfl⟩
            rw [← Option.some.inj h, hmsg, List.cons_append]
    · rw [if_neg hsome] at h; cases h

theorem runFrom_preserves_inv (df : List BookRecord) (ops : List Op) :
    ∀ s s', SessionInv s → runFrom df s ops = some s' → SessionInv s' := by
  induction ops with
  | nil =>
    intro s s' hs h
    exact (Option.some.inj h) ▸ hs
  | cons op ops ih =>
    intro s s' hs h
    unfold runFrom at h
    rw [List.foldlM_cons] at h
    cases hstep : step df s op with
    | none => rw [hstep] at h; cases h
    | some s1 =>
      rw [hstep] at h
      exact ih s1 s' (step_preserves_inv df s s1 op hs hstep) h

theorem runFrom_preserves_strong (df : List BookRecord) (ops : List Op) :
    ∀ s s', SessionInvStrong s → (∀ op ∈ ops, successfulOp op = true) →
      runFrom df s ops = some s' → SessionInvStrong s' := by
  induction ops with
  | nil =>
    intro s s' hs _ h
    exact (Option.some.inj h) ▸ hs
  | cons op ops ih =>
    intro s s' hs hall h
    unfold runFrom at h
    rw [List.foldlM_cons] at h
    cases hstep : step df s op with
    | none => rw [hstep] at h; cases h
    | some s1 =>
      rw [hstep] at h
      have hop := hall op (List.mem_cons_self op ops)
      have hrest : ∀ o ∈ ops, successfulOp o = true :=
        fun o ho => hall o (List.mem_cons_of_mem op ho)
      exact ih s1 s' (step_preserves_strong df s s1 op hs hop hstep) hrest h

/-! ## Claim theorems -/

/-- C10: the stream-assembly loop treats a chunk whose delta lacks a
content field as the empty string (total, never raising in the
embedding), and the assembled assistant content equals the concatenation
of exactly the content deltas that are present, in delivery order. -/
theorem accumulate_skips_missing_deltas (chunks : List Chunk) :
    accumulate chunks = String.join (chunks.filterMap Chunk.content) ∧
    ∀ c : Chunk, c.content = none →
      accumulate (chunks ++ [c]) = accumulate chunks := by
  refine ⟨accumulate_eq_join_filterMap chunks, fun c hc => ?_⟩
  rw [accumulate_eq_join_filterMap, accumulate_eq_join_filterMap,
    List.filterMap_append]
  simp [List.filterMap, hc]

/-- C10, witness: a present delta followed by a missing one. -/
theorem accumulate_skips_missing_deltas_witness :
    accumulate [Chunk.mk (some "a")]
      = String.join ([Chunk.mk (some "a")].filterMap Chunk.content) ∧
    accumulate ([Chunk.mk (some "a")] ++ [Chunk.mk none])
      = accumulate [Chunk.mk (some "a")] :=
  ⟨(accumulate_skips_missing_deltas [Chunk.mk (some "a")]).1,
   (accumulate_skips_missing_deltas [Chunk.mk (some "a")]).2
     (Chunk.mk none) rfl⟩

/-- C4: after a submission whose chunk stream is exhausted normally, the
conversation equals the old one extended by the user message and then the
assistant message whose content is the concatenation of the delivered
text deltas, in delivery order; no error is surfaced. -/
theorem submit_success_appends_user_then_assistant (s : SessionState)
    (prompt : String) (chunks : List Chunk) :
    submit s prompt (UpstreamBehavior.streams chunks false)
      = ({ s with messages := s.messages ++
            [{ role := "user", content := prompt },
             { role := "assistant", content := accumulate chunks }] },
         false) ∧
    accumulate chunks
      = String.join (chunks.map (fun c => c.content.getD "")) :=
  ⟨submit_success_eq s prompt chunks, accumulate_eq_join_map chunks⟩

/-- C7: when the upstream call fails to start (no response object), an
error is surfaced, no assistant message is appended, and the conversation
is otherwise unchanged — the just-appended user message remains. -/
theorem submit_call_failure_keeps_user_no_assistant (s : SessionState)
    (prompt : String) :
    submit s prompt UpstreamBehavior.raises
      = ({ s with messages :=
            s.messages ++ [{ role := "user", content := prompt }] },
         true) :=
  submit_raises_eq s prompt

/-- C1 counterexample: the stream fails after delivering the fragments
"Once " and "upon" (so the accumulator is the non-empty "Once upon"), an
error is surfaced, yet no assistant message is committed — the claim's
required message with content "Once upon" is absent, the last message
being the user turn. -/
theorem stream_failure_discards_partial_cex :
    accumulate [Chunk.mk (some "Once "), Chunk.mk (some "upon")]
      = "Once upon" ∧
    (submit { messages := [{ role := "system", content := "S" }],
              selected_book := some "B" }
        "Tell me a story"
        (UpstreamBehavior.streams
          [Chunk.mk (some "Once "), Chunk.mk (some "upon")] true)).snd
      = true ∧
    (submit { messages := [{ role := "system", content := "S" }],
              selected_book := some "B" }
        "Tell me a story"
        (UpstreamBehavior.streams
          [Chunk.mk (some "Once "), Chunk.mk (some "upon")] true)).fst.messages
      = [{ role := "system", content := "S" },
         { role := "user", content := "Tell me a story" }] ∧
    ({ role := "assistant", content := "Once upon" } : Message) ∉
      (submit { messages := [{ role := "system", content := "S" }],
                selected_book := some "B" }
          "Tell me a story"
          (UpstreamBehavior.streams
            [Chunk.mk (some "Once "), Chunk.mk (some "upon")] true)).fst.messages := by
  refine ⟨rfl, rfl, rfl, ?_⟩
  decide

/-- C1 amended: when the chunk stream fails partway through iteration,
the session surfaces an error and appends no assistant message at all —
the partial accumulator, non-empty or not, is discarded from the
conversation (the `except` block only shows the error; the append after
the loop is skipped). -/
theorem submit_stream_failure_appends_only_user (s : SessionState)
    (prompt : String) (chunks : List Chunk) :
    submit s prompt (UpstreamBehavior.streams chunks true)
      = ({ s with messages :=
            s.messages ++ [{ role := "user", content := prompt }] },
         true) :=
  submit_midstream_failure_eq s prompt chunks

/-- C2 counterexample: on a missing or unparsable catalog resource,
`load_data` returns the empty table (not a built-in fallback catalog) and
`main` stops rendering, so filtering and book selection are not
available. -/
theorem load_failure_no_fallback_cex :
    load_data DataSource.missing = ([], true) ∧
    load_data DataSource.malformed = ([], true) ∧
    main_continues DataSource.missing = false ∧
    main_continues DataSource.malformed = false := by
  refine ⟨rfl, rfl, rfl, rfl⟩

/-- C2 amended: when the catalog data source is missing or unparsable,
`load_data` surfaces an error and returns an empty catalog, and `main`
warns and returns early — no fallback catalog is substituted and
operation does not continue. -/
theorem load_failure_warns_and_stops (ds : DataSource)
    (h : ds = DataSource.missing ∨ ds = DataSource.malformed) :
    load_data ds = ([], true) ∧ main_continues ds = false := by
  rcases h with h | h <;> rw [h] <;> exact ⟨rfl, rfl⟩

/-- C2 amended, witness: the missing-resource case. -/
theorem load_failure_warns_and_stops_witness :
    load_data DataSource.missing = ([], true) ∧
    main_continues DataSource.missing = false :=
  load_failure_warns_and_stops DataSource.missing (Or.inl rfl)

theorem lookup_title (df : List BookRecord) (t : String) (b : BookRecord)
    (h : lookup df t = some b) : b.title = t := by
  unfold lookup at h
  have hb : b ∈ df.filter (fun r => r.title == t) := by
    cases hl : df.filter (fun r => r.title == t) with
    | nil => rw [hl] at h; cases h
    | cons x xs =>
      rw [hl] at h
      exact (Option.some.inj h) ▸ List.mem_cons_self x xs
  exact beq_iff_eq.mp (List.mem_filter.mp hb).2

/-- C5: selecting a title different from the active one replaces the
whole conversation with exactly one system message whose content contains
the summary of the book with that title. -/
theorem selectBook_change_resets_to_system_summary (df : List BookRecord)
    (s : SessionState) (t : String) (b : BookRecord)
    (hne : s.selected_book ≠ some t) (hb : lookup df t = some b) :
    selectBook df s t
      = some { messages :=
                 [{ role := "system",
                    content := system_prompt_content b.summary }],
               selected_book := some t } ∧
    b.title = t ∧
    ∃ pre post, system_prompt_content b.summary = pre ++ b.summary ++ post := by
  refine ⟨?_, lookup_title df t b hb,
    system_prompt_before, system_prompt_after, rfl⟩
  unfold selectBook
  rw [if_neg hne, hb]
  rfl

/-- C5, witness: selecting Atomic Habits from the fresh session over the
sample catalog. -/
theorem selectBook_change_resets_witness :
    initState.selected_book ≠ some "Atomic Habits" ∧
    lookup df0 "Atomic Habits"
      = some { title := "Atomic Habits", category := "Self-help",
               author := "James Clear", summary := "Habits compound." } ∧
    selectBook df0 initState "Atomic Habits"
      = some { messages :=
                 [{ role := "system",
                    content := system_prompt_content "Habits compound." }],
               selected_book := some "Atomic Habits" } := by
  refine ⟨by decide, rfl, ?_⟩
  exact (selectBook_change_resets_to_system_summary df0 initState
    "Atomic Habits" _ (by decide) rfl).1

/-- C6: book selection is idempotent on the session: whatever a
successful selection of title t produced, selecting t again from the
resulting state is a no-op. -/
theorem selectBook_idempotent (df : List BookRecord) (s s1 : SessionState)
    (t : String) (h : selectBook df s t = some s1) :
    selectBook df s1 t = some s1 := by
  have h1 : s1.selected_book = some t := by
    rcases selectBook_cases df s s1 t h with ⟨hsel, heq⟩ | ⟨book, _, heq⟩
    · rw [heq, hsel]
    · rw [heq]
  unfold selectBook
  rw [if_pos h1]

/-- C6, witness: reselecting Atomic Habits right after selecting it
leaves the conversation of the first selection unchanged. -/
theorem selectBook_idempotent_witness :
    selectBook df0
      { messages :=
          [{ role := "system",
             content := system_prompt_content "Habits compound." }],
        selected_book := some "Atomic Habits" }
      "Atomic Habits"
      = some { messages :=
                 [{ role := "system",
                    content := system_prompt_content "Habits compound." }],
               selected_book := some "Atomic Habits" } :=
  selectBook_idempotent df0 initState _ "Atomic Habits" rfl

/-- C9: filtering by the sentinel All Categories is the identity on the
catalog, and filtering by any other value keeps exactly the rows whose
category field is string-equal to it. -/
theorem filterByCategory_sentinel_identity (C : List BookRecord)
    (X : String) :
    filterByCategory C "All Categories" = C ∧
    (X ≠ "All Categories" →
      filterByCategory C X = C.filter (fun r => r.category == X)) := by
  constructor
  · unfold filterByCategory
    rw [if_pos rfl]
  · intro h
    unfold filterByCategory
    rw [if_neg h]

/-- C9, witness: the sentinel and the Self-help category on the sample
catalog. -/
theorem filterByCategory_sentinel_identity_witness :
    filterByCategory df0 "All Categories" = df0 ∧
    filterByCategory df0 "Self-help"
      = df0.filter (fun r => r.category == "Self-help") :=
  ⟨(filterByCategory_sentinel_identity df0 "Self-help").1,
   (filterByCategory_sentinel_identity df0 "Self-help").2 (by decide)⟩

/-- C8: applying the category filter and the author filter in either
order gives the same catalog, and that catalog is exactly the
intersection of the two single-filter results. -/
theorem filters_compose_as_intersection (C : List BookRecord)
    (X A : String) :
    filterByAuthor (filterByCategory C X) A
      = filterByCategory (filterByAuthor C A) X ∧
    filterByAuthor (filterByCategory C X) A
      = (filterByCategory C X) ∩ (filterByAuthor C A) := by
  have hCA : filterByAuthor (filterByCategory C X) A
      = C.filter (fun r => authPred A r && catPred X r) := by
    rw [filterByCategory_eq_filter, filterByAuthor_eq_filter,
      List.filter_filter]
  have hAC : filterByCategory (filterByAuthor C A) X
      = C.filter (fun r => catPred X r && authPred A r) := by
    rw [filterByAuthor_eq_filter, filterByCategory_eq_filter,
      List.filter_filter]
  constructor
  · rw [hCA, hAC]
    exact List.filter_congr fun x _ => Bool.and_comm _ _
  · rw [hCA, List.inter_def, filterByCategory_eq_filter,
      filterByAuthor_eq_filter, List.filter_filter]
    refine List.filter_congr fun x hx => ?_
    have hmem : (List.elem x (C.filter (authPred A))) = authPred A x := by
      cases hq : authPred A x
      · simp [List.elem_iff, List.mem_filter, hx, hq]
      · simp [List.elem_iff, List.mem_filter, hx, hq]
    rw [hmem]

/-- C3 counterexample: after a submission whose upstream call fails (the
user turn stays with no assistant reply) a further submission produces
two adjacent user messages, so the claimed alternation invariant fails in
a reachable state. -/
theorem conversation_alternation_cex :
    (run df0 [Op.select "Atomic Habits",
              Op.submit "Q1" UpstreamBehavior.raises,
              Op.submit "Q2" (UpstreamBehavior.streams [] false)]).map
        (fun s => (s.messages.map Message.role,
                   conversationInvariant s.messages))
      = some (["system", "user", "user", "assistant"], false) := by
  decide

/-- C3 amended: in every reachable session state the first message, if
present, has role system; and when every submission's upstream call
succeeded with a normally exhausted stream, the subsequent messages
alternate user/assistant starting with user. (A failed submission leaves
a user message without an assistant reply, after which alternation can
break.) -/
theorem conversation_shape_reachable (df : List BookRecord) (ops : List Op)
    (s : SessionState) (h : run df ops = some s) :
    firstIsSystem s.messages = true ∧
    ((∀ op ∈ ops, successfulOp op = true) →
      conversationInvariant s.messages = true) := by
  have hinv := runFrom_preserves_inv df ops initState s
    (Or.inl ⟨rfl, rfl⟩) h
  constructor
  · rcases hinv with ⟨_, hmsg⟩ | ⟨m, rest, hmsg, hrole⟩
    · rw [hmsg]; rfl
    · rw [hmsg]
      unfold firstIsSystem
      exact beq_iff_eq.mpr hrole
  · intro hall
    have hstrong := runFrom_preserves_strong df ops initState s
      (Or.inl ⟨rfl, rfl⟩) hall h
    rcases hstrong with ⟨_, hmsg⟩ | ⟨m, rest, hmsg, hrole, hpairs⟩
    · rw [hmsg]; rfl
    · rw [hmsg]
      unfold conversationInvariant
      simp [hrole, Pairs.alternates hpairs]

set_option maxRecDepth 4096 in
/-- C3 amended, witness: the scenario of the spec — select Atomic Habits,
then one successful submission streaming three chunks. -/
theorem conversation_shape_reachable_witness :
    firstIsSystem
      [{ role := "system",
         content := system_prompt_content "Habits compound." },
       { role := "user", content := "What is the core idea?" },
       { role := "assistant", content := "Build good systems." }] = true ∧
    conversationInvariant
      [{ role := "system",
         content := system_prompt_content "Habits compound." },
       { role := "user", content := "What is the core idea?" },
       { role := "assistant", content := "Build good systems." }] = true := by
  have h := conversation_shape_reachable df0
    [Op.select "Atomic Habits",
     Op.submit "What is the core idea?"
       (UpstreamBehavior.streams
         [Chunk.mk (some "Build "), Chunk.mk (some "good "),
          Chunk.mk (some "systems.")] false)]
    { messages :=
        [{ role := "system",
           content := system_prompt_content "Habits compound." },
         { role := "user", content := "What is the core idea?" },
         { role := "assistant", content := "Build good systems." }],
      selected_book := some "Atomic Habits" }
    (by decide)
  exact ⟨h.1, h.2 (by decide)⟩

end BookChat
